import Mathlib

/-!
Shallow embedding of the Shootmaster combat core, translated from the
TypeScript source files src/client/game/GunController.ts,
src/client/game/NPCSystem.ts and src/client/game/GameState.tsx.

Modelling conventions:
- JS numbers are rationals, except hostile-actor plane coordinates, which
  are reals because per-tick movement scales a displacement vector by a
  ratio whose denominator is a Euclidean distance (a square root).
- Every `Date.now()` read is passed in explicitly as a rational timestamp.
- The optional callbacks of GunController (onFire, onEmpty, onReload) are
  modelled as an explicit signal component of the return value, and the
  setTimeout in reload() as a returned completion deadline plus an explicit
  completion step `reloadComplete`, so the deferred behaviour is visible.
- TS `undefined` for an optional field is `Option.none`; JS truthiness of
  an object or array value (`config.patrolPoints ? ... : ...`) is
  `Option.isSome`, since any object, including an empty array, is truthy.
-/

namespace Shootmaster

/-- GunController.ts, interface GunStats. All fields are JS numbers;
magazineSize is modelled as an integer (every construction path in the
source supplies an integer, and the factory clamps with Math.floor). -/
structure GunStats where
  damage : ℚ
  fireRate : ℚ
  recoil : ℚ
  spread : ℚ
  magazineSize : ℤ
  reloadTime : ℚ
  deriving DecidableEq

/-- GunController.ts, the four weapon categories of GunConfig.type. -/
inductive GunType
  | pistol
  | rifle
  | shotgun
  | sniper
  deriving DecidableEq

/-- GunController.ts, interface GunConfig. -/
structure GunConfig where
  name : String
  type : GunType
  stats : GunStats
  deriving DecidableEq

/-- PRESET_GUNS.pistol. -/
def pistolConfig : GunConfig :=
  ⟨"M9 Pistol", GunType.pistol, ⟨25, 3, 0.2, 0.05, 15, 1500⟩⟩

/-- PRESET_GUNS.rifle. -/
def rifleConfig : GunConfig :=
  ⟨"M4A1 Rifle", GunType.rifle, ⟨35, 8, 0.4, 0.08, 30, 2000⟩⟩

/-- PRESET_GUNS.shotgun. -/
def shotgunConfig : GunConfig :=
  ⟨"M870 Shotgun", GunType.shotgun, ⟨80, 1, 0.8, 0.3, 8, 2500⟩⟩

/-- PRESET_GUNS.sniper. -/
def sniperConfig : GunConfig :=
  ⟨"M24 Sniper", GunType.sniper, ⟨120, 0.5, 0.9, 0.02, 5, 3000⟩⟩

/-- The signal a GunController call pushes through its optional callbacks:
onFire, onEmpty, onReload. -/
inductive GunSignal
  | fired
  | empty
  | reloadStarted
  deriving DecidableEq

/-- GunController.ts, class GunController: the mutable fields. -/
structure GunController where
  config : GunConfig
  currentAmmo : ℤ
  isReloading : Bool
  lastFireTime : ℚ
  deriving DecidableEq

/-- GunController.ts, constructor(config): currentAmmo starts at
magazineSize, isReloading at false, lastFireTime at 0. -/
def mkGunController (config : GunConfig) : GunController :=
  { config := config
    currentAmmo := config.stats.magazineSize
    isReloading := false
    lastFireTime := 0 }

/-- GunController.fire() (GunController.ts lines 91-113). `now` is the
`Date.now()` read at entry. Returns the new controller, the boolean result,
and the signal emitted (if any): rejection while reloading or on cooldown is
silent, rejection with an empty magazine emits onEmpty, success emits
onFire. -/
def GunController.fire (g : GunController) (now : ℚ) :
    GunController × Bool × Option GunSignal :=
  let fireInterval := 1000 / g.config.stats.fireRate
  if g.isReloading then (g, false, none)
  else if now - g.lastFireTime < fireInterval then (g, false, none)
  else if g.currentAmmo ≤ 0 then (g, false, some GunSignal.empty)
  else
    ({ g with currentAmmo := g.currentAmmo - 1, lastFireTime := now },
     true, some GunSignal.fired)

/-- GunController.reload() (GunController.ts lines 115-130), start phase.
If already reloading it resolves immediately with no state change and no
scheduled completion. Otherwise it sets isReloading, emits onReload, and
schedules the completion for `now + reloadTime` (the setTimeout delay); the
returned `some deadline` stands for that pending timeout. -/
def GunController.reload (g : GunController) (now : ℚ) :
    GunController × Option ℚ :=
  if g.isReloading then (g, none)
  else ({ g with isReloading := true }, some (now + g.config.stats.reloadTime))

/-- The body of the setTimeout callback inside GunController.reload():
refill currentAmmo to magazineSize and clear isReloading. -/
def GunController.reloadComplete (g : GunController) : GunController :=
  { g with currentAmmo := g.config.stats.magazineSize, isReloading := false }

/-- NPCSystem.ts, type NPCState. -/
inductive NPCState
  | idle
  | patrol
  | aggressive
  deriving DecidableEq

/-- NPCSystem.ts, interface NPCPosition: real-valued plane coordinates. -/
structure NPCPosition where
  x : ℝ
  y : ℝ

/-- NPCSystem.ts, interface NPC. Numeric fields other than the position are
rationals (no square root ever flows into them). The optional patrolPoints
field is `none` when absent; currentPatrolIndex is always set by the
constructor, so it is a plain natural number. -/
structure NPC where
  id : String
  name : String
  state : NPCState
  position : NPCPosition
  health : ℚ
  maxHealth : ℚ
  detectionRange : ℚ
  attackRange : ℚ
  speed : ℚ
  patrolPoints : Option (List NPCPosition)
  currentPatrolIndex : ℕ

/-- NPCSystem.ts, interface NPCConfig: every field but the name is
optional. -/
structure NPCConfig where
  name : String
  health : Option ℚ := none
  detectionRange : Option ℚ := none
  attackRange : Option ℚ := none
  speed : Option ℚ := none
  patrolPoints : Option (List NPCPosition) := none

/-- NPCSystem.ts, class NPCController: the npc record plus the two private
timestamps. -/
structure NPCController where
  npc : NPC
  stateTransitionTime : ℚ
  lastUpdateTime : ℚ

/-- NPCController constructor (NPCSystem.ts lines 43-58). `now` is the
`Date.now()` stored into lastUpdateTime. The initial state mirrors the JS
truthiness test `config.patrolPoints ? "patrol" : "idle"`: any supplied
array, empty or not, is truthy, so the test is `Option.isSome`. Defaults
come from DEFAULT_NPC_CONFIG via the ?? operator. -/
def mkNPCController (id : String) (position : NPCPosition) (config : NPCConfig)
    (now : ℚ) : NPCController :=
  { npc :=
      { id := id
        name := config.name
        state := if config.patrolPoints.isSome then NPCState.patrol else NPCState.idle
        position := { x := position.x, y := position.y }
        health := config.health.getD 100
        maxHealth := config.health.getD 100
        detectionRange := config.detectionRange.getD 150
        attackRange := config.attackRange.getD 50
        speed := config.speed.getD 2
        patrolPoints := config.patrolPoints
        currentPatrolIndex := 0 }
    stateTransitionTime := 0
    lastUpdateTime := now }

/-- NPCController.getDistanceTo (NPCSystem.ts lines 133-137): Euclidean
distance from the actor to a target point. -/
noncomputable def NPCController.getDistanceTo (c : NPCController)
    (target : NPCPosition) : ℝ :=
  let dx := target.x - c.npc.position.x
  let dy := target.y - c.npc.position.y
  Real.sqrt (dx * dx + dy * dy)

/-- NPCController.transitionTo (NPCSystem.ts lines 139-144): change state
and record the transition timestamp only when the state actually changes. -/
def NPCController.transitionTo (c : NPCController) (newState : NPCState)
    (now : ℚ) : NPCController :=
  if c.npc.state ≠ newState then
    { c with npc := { c.npc with state := newState }, stateTransitionTime := now }
  else c

/-- NPCController.moveTowards (NPCSystem.ts lines 120-131): advance toward
a target at `speed × deltaTime × 60` units, clamped so as not to overshoot;
no movement when the distance to the target is 0. -/
noncomputable def NPCController.moveTowards (c : NPCController)
    (target : NPCPosition) (deltaTime : ℚ) : NPCController :=
  let dx := target.x - c.npc.position.x
  let dy := target.y - c.npc.position.y
  let distance := Real.sqrt (dx * dx + dy * dy)
  if 0 < distance then
    let moveDistance : ℝ := (c.npc.speed : ℝ) * (deltaTime : ℝ) * 60
    let ratio := min (moveDistance / distance) 1
    { c with npc := { c.npc with position :=
        { x := c.npc.position.x + dx * ratio
          y := c.npc.position.y + dy * ratio } } }
  else c

/-- NPCController.handleIdleState (NPCSystem.ts lines 80-84). -/
noncomputable def NPCController.handleIdleState (c : NPCController)
    (distanceToPlayer : ℝ) (now : ℚ) : NPCController :=
  if distanceToPlayer ≤ (c.npc.detectionRange : ℝ) then
    c.transitionTo NPCState.aggressive now
  else c

/-- NPCController.handlePatrolState (NPCSystem.ts lines 86-103). The guard
`this.npc.patrolPoints && this.npc.patrolPoints.length > 0` becomes a match
on the option plus a length test; the non-null indexing
`patrolPoints[currentPatrolIndex]!` is List.getD (in the source the index is
always kept within bounds by the cyclic advance). -/
noncomputable def NPCController.handlePatrolState (c : NPCController)
    (distanceToPlayer : ℝ) (deltaTime now : ℚ) : NPCController :=
  if distanceToPlayer ≤ (c.npc.detectionRange : ℝ) then
    c.transitionTo NPCState.aggressive now
  else
    match c.npc.patrolPoints with
    | some pts =>
      if 0 < pts.length then
        let targetPoint := pts.getD c.npc.currentPatrolIndex ⟨0, 0⟩
        let distanceToTarget := c.getDistanceTo targetPoint
        if distanceToTarget < 5 then
          { c with npc := { c.npc with
              currentPatrolIndex := (c.npc.currentPatrolIndex + 1) % pts.length } }
        else c.moveTowards targetPoint deltaTime
      else c
    | none => c

/-- NPCController.handleAggressiveState (NPCSystem.ts lines 105-118).
De-escalation target mirrors the truthiness test
`this.npc.patrolPoints ? "patrol" : "idle"`. -/
noncomputable def NPCController.handleAggressiveState (c : NPCController)
    (playerPosition : NPCPosition) (distanceToPlayer : ℝ) (deltaTime now : ℚ) :
    NPCController :=
  if (c.npc.detectionRange : ℝ) * 1.5 < distanceToPlayer then
    c.transitionTo
      (if c.npc.patrolPoints.isSome then NPCState.patrol else NPCState.idle) now
  else if (c.npc.attackRange : ℝ) < distanceToPlayer then
    c.moveTowards playerPosition deltaTime
  else c

/-- NPCController.update (NPCSystem.ts lines 60-78). `now` is the
`Date.now()` read at entry; deltaTime is in seconds and lastUpdateTime is
overwritten before dispatching on the state. -/
noncomputable def NPCController.update (c : NPCController)
    (playerPosition : NPCPosition) (now : ℚ) : NPCController :=
  let deltaTime := (now - c.lastUpdateTime) / 1000
  let c1 : NPCController := { c with lastUpdateTime := now }
  let distanceToPlayer := c1.getDistanceTo playerPosition
  match c1.npc.state with
  | NPCState.idle => c1.handleIdleState distanceToPlayer now
  | NPCState.patrol => c1.handlePatrolState distanceToPlayer deltaTime now
  | NPCState.aggressive =>
      c1.handleAggressiveState playerPosition distanceToPlayer deltaTime now

/-- NPCController.takeDamage (NPCSystem.ts lines 146-152): clamp health at
0, force the aggressive state, and return whether health is now ≤ 0. `now`
is the `Date.now()` read inside transitionTo. -/
def NPCController.takeDamage (c : NPCController) (amount : ℚ) (now : ℚ) :
    NPCController × Bool :=
  let c1 : NPCController :=
    { c with npc := { c.npc with health := max 0 (c.npc.health - amount) } }
  let c2 := if c1.npc.state ≠ NPCState.aggressive then
              c1.transitionTo NPCState.aggressive now
            else c1
  (c2, decide (c2.npc.health ≤ 0))

/-- NPCController.heal (NPCSystem.ts lines 154-156). -/
def NPCController.heal (c : NPCController) (amount : ℚ) : NPCController :=
  { c with npc := { c.npc with
      health := min c.npc.maxHealth (c.npc.health + amount) } }

/-- NPCSystem.ts, class NPCManager: the `Map<string, NPCController>` is
modelled by its lookup function (`Map.get`); `Map.set` inserts or silently
replaces. Insertion order is irrelevant to the properties below. -/
structure NPCManager where
  npcs : String → Option NPCController

/-- A fresh NPCManager: `new Map()`. -/
def NPCManager.emptyManager : NPCManager := ⟨fun _ => none⟩

/-- NPCManager.spawnNPC (NPCSystem.ts lines 190-194): construct the
controller, `Map.set` it under the id (replacing any existing entry), and
return it. -/
def NPCManager.spawnNPC (m : NPCManager) (id : String) (position : NPCPosition)
    (config : NPCConfig) (now : ℚ) : NPCManager × NPCController :=
  let controller := mkNPCController id position config now
  (⟨fun k => if k = id then some controller else m.npcs k⟩, controller)

/-- NPCManager.getNPC (NPCSystem.ts lines 204-206): `Map.get`. -/
def NPCManager.getNPC (m : NPCManager) (id : String) : Option NPCController :=
  m.npcs id

/-! Reference-semantics model of the NPCController accessors (NPCSystem.ts
lines 158-176). The value model above cannot express aliasing, so here the
position object held by `this.npc` lives in an explicit heap of position
cells addressed by naturals, exactly as a JS object reference. Coordinates
are rationals here: no arithmetic is done on them, they are only stored and
compared. -/

/-- A JS position object `{x, y}` as a heap cell. -/
structure PosObj where
  x : ℚ
  y : ℚ
  deriving DecidableEq

/-- The heap of live position objects; an address is an index. -/
structure PosHeap where
  cells : List PosObj
  deriving DecidableEq

/-- Dereference an address (reads of valid references only are used). -/
def PosHeap.read (h : PosHeap) (a : ℕ) : PosObj :=
  h.cells.getD a ⟨0, 0⟩

/-- Mutate the object at an address, as `obj.x = ...; obj.y = ...` would. -/
def PosHeap.write (h : PosHeap) (a : ℕ) (p : PosObj) : PosHeap :=
  ⟨h.cells.set a p⟩

/-- Allocate a fresh object, as an object literal does. -/
def PosHeap.alloc (h : PosHeap) (p : PosObj) : PosHeap × ℕ :=
  (⟨h.cells ++ [p]⟩, h.cells.length)

/-- The `this.npc` record with its position field held by reference, as in
JS; the patrol route array is likewise a reference when present. -/
structure NPCObjRef where
  id : String
  name : String
  state : NPCState
  positionRef : ℕ
  health : ℚ
  maxHealth : ℚ
  detectionRange : ℚ
  attackRange : ℚ
  speed : ℚ
  patrolPointsRef : Option ℕ
  currentPatrolIndex : ℕ
  deriving DecidableEq

/-- NPCController.getPosition (NPCSystem.ts lines 162-164):
`return { ...this.npc.position }` allocates a fresh position object with
the same coordinates and returns the fresh reference. -/
def getPositionRef (h : PosHeap) (c : NPCObjRef) : PosHeap × ℕ :=
  h.alloc (h.read c.positionRef)

/-- NPCController.getHealth (NPCSystem.ts lines 166-168): returns the
number itself, a primitive value. -/
def getHealthRef (c : NPCObjRef) : ℚ :=
  c.health

/-- NPCController.getState (NPCSystem.ts lines 158-160): returns the state
string, a primitive value. -/
def getStateRef (c : NPCObjRef) : NPCState :=
  c.state

/-- NPCController.getNPC (NPCSystem.ts lines 174-176):
`return { ...this.npc }` copies each field value into a fresh record; the
position field value is the reference, so the copy holds the same
positionRef (and the same patrolPointsRef), not a fresh cell. -/
def getNPCRef (c : NPCObjRef) : NPCObjRef :=
  { id := c.id
    name := c.name
    state := c.state
    positionRef := c.positionRef
    health := c.health
    maxHealth := c.maxHealth
    detectionRange := c.detectionRange
    attackRange := c.attackRange
    speed := c.speed
    patrolPointsRef := c.patrolPointsRef
    currentPatrolIndex := c.currentPatrolIndex }

/-- A concrete one-cell heap whose single position object sits at address
0, used by the aliasing results below. -/
def heapExample : PosHeap := ⟨[⟨0, 0⟩]⟩

/-- A concrete actor record over `heapExample`, holding the reference to
the cell at address 0. -/
def npcRefExample : NPCObjRef :=
  { id := "e1"
    name := "E"
    state := NPCState.idle
    positionRef := 0
    health := 100
    maxHealth := 100
    detectionRange := 150
    attackRange := 50
    speed := 2
    patrolPointsRef := none
    currentPatrolIndex := 0 }

/-- GameState.tsx, interface Mission. -/
structure Mission where
  id : String
  title : String
  objective : String
  reward : ℚ
  targetNPC : String
  deriving DecidableEq

/-- GameState.tsx, the player position {x, y}. -/
structure PlayerPosition where
  x : ℚ
  y : ℚ
  deriving DecidableEq

/-- GameState.tsx, interface GameState. -/
structure GameState where
  health : ℚ
  maxHealth : ℚ
  ammo : ℚ
  maxAmmo : ℚ
  playerLevel : ℚ
  position : PlayerPosition
  currentMission : Option Mission
  equippedWeapon : String
  score : ℚ
  deriving DecidableEq

/-- GameState.tsx, type GameAction. -/
inductive GameAction
  | shoot
  | reload
  | takeDamage (payload : ℚ)
  | heal (payload : ℚ)
  | move (payload : PlayerPosition)
  | setMission (payload : Mission)
  | completeMission
  | equipWeapon (payload : String)
  | addScore (payload : ℚ)
  | reset
  deriving DecidableEq

/-- GameState.tsx, initialState. -/
def initialState : GameState :=
  { health := 100
    maxHealth := 100
    ammo := 30
    maxAmmo := 30
    playerLevel := 1
    position := ⟨0, 0⟩
    currentMission := none
    equippedWeapon := "rifle"
    score := 0 }

/-- GameState.tsx, gameReducer (lines 47-96). The inductive action type is
exhaustive, so the default branch of the switch is unreachable; the falsy
test `if (!state.currentMission)` on a nullable object is a match on the
option. -/
def gameReducer (state : GameState) (action : GameAction) : GameState :=
  match action with
  | GameAction.shoot =>
      if state.ammo ≤ 0 then state else { state with ammo := state.ammo - 1 }
  | GameAction.reload => { state with ammo := state.maxAmmo }
  | GameAction.takeDamage payload =>
      { state with health := max 0 (state.health - payload) }
  | GameAction.heal payload =>
      { state with health := min state.maxHealth (state.health + payload) }
  | GameAction.move payload =>
      { state with position :=
          ⟨state.position.x + payload.x, state.position.y + payload.y⟩ }
  | GameAction.setMission payload => { state with currentMission := some payload }
  | GameAction.completeMission =>
      match state.currentMission with
      | none => state
      | some m =>
          { state with score := state.score + m.reward, currentMission := none }
  | GameAction.equipWeapon payload => { state with equippedWeapon := payload }
  | GameAction.addScore payload => { state with score := state.score + payload }
  | GameAction.reset => initialState

/-- An action whose numeric payload is nonnegative (and whose mission
reward is nonnegative); the payload-free actions qualify trivially. -/
def nonNegAction (a : GameAction) : Bool :=
  match a with
  | GameAction.takeDamage payload => decide (0 ≤ payload)
  | GameAction.heal payload => decide (0 ≤ payload)
  | GameAction.addScore payload => decide (0 ≤ payload)
  | GameAction.setMission payload => decide (0 ≤ payload.reward)
  | _ => true

/-- The inductive invariant of the player-state store: bounded health and
ammo, integer ammo capacity, and a nonnegative reward on any pending
mission. -/
def GameInv (s : GameState) : Prop :=
  0 ≤ s.health ∧ s.health ≤ s.maxHealth ∧
  0 ≤ s.ammo ∧ s.ammo ≤ s.maxAmmo ∧
  (∃ n : ℕ, s.ammo = n) ∧ (∃ k : ℕ, s.maxAmmo = k) ∧
  ∀ m, s.currentMission = some m → 0 ≤ m.reward

/-- C1: GunController.fire returns false with no change to currentAmmo or
lastFireTime whenever the gun is reloading, the elapsed time since the last
successful fire is strictly below 1000/fireRate ms, or currentAmmo is 0;
otherwise it decrements currentAmmo by exactly 1, records the fire
timestamp, and returns true; currentAmmo never becomes negative. The
hypotheses scope the statement to well-formed guns (positive fire rate, as
the data model requires, and nonnegative ammo, as every reachable
controller has). -/
theorem fire_spec (g : GunController) (now : ℚ)
    (_hfr : 0 < g.config.stats.fireRate) (ha : 0 ≤ g.currentAmmo) :
    ((g.isReloading = true ∨
        now - g.lastFireTime < 1000 / g.config.stats.fireRate ∨
        g.currentAmmo = 0) →
      (g.fire now).1 = g ∧ (g.fire now).2.1 = false) ∧
    (g.isReloading = false →
      ¬ now - g.lastFireTime < 1000 / g.config.stats.fireRate →
      g.currentAmmo ≠ 0 →
      (g.fire now).1.currentAmmo = g.currentAmmo - 1 ∧
      (g.fire now).1.lastFireTime = now ∧
      (g.fire now).2.1 = true) ∧
    0 ≤ (g.fire now).1.currentAmmo := by
  cases hrel : g.isReloading with
  | true => simp [GunController.fire, hrel, ha]
  | false =>
    by_cases hcd : now - g.lastFireTime < 1000 / g.config.stats.fireRate
    · simp [GunController.fire, hrel, hcd, ha]
    · by_cases hz : g.currentAmmo ≤ 0
      · have h0 : g.currentAmmo = 0 := le_antisymm hz ha
        simp [GunController.fire, hrel, hcd, hz, h0]
      · push_neg at hz
        have h1 : (1 : ℤ) ≤ g.currentAmmo := hz
        simp [GunController.fire, hrel, hcd, hz.ne', not_le.mpr hz]
        omega

/-- C1 witness: the preset rifle fired 1000 ms after construction (cooldown
interval 125 ms, 30 rounds loaded) succeeds and leaves 29 rounds. -/
theorem fire_spec_witness :
    ((mkGunController rifleConfig).fire 1000).1.currentAmmo = 29 ∧
    ((mkGunController rifleConfig).fire 1000).2.1 = true := by
  have h := fire_spec (mkGunController rifleConfig) 1000
    (by norm_num [mkGunController, rifleConfig])
    (by norm_num [mkGunController, rifleConfig])
  have h2 := h.2.1 rfl
    (by norm_num [mkGunController, rifleConfig])
    (by norm_num [mkGunController, rifleConfig])
  refine ⟨?_, h2.2.2⟩
  rw [h2.1]
  norm_num [mkGunController, rifleConfig]

/-- C4: GunController.reload while already reloading completes immediately
with no state change; otherwise it sets isReloading, schedules completion
for reloadTime ms later, and the completion step refills currentAmmo to
magazineSize and clears isReloading. -/
theorem reload_spec (g : GunController) (now : ℚ) :
    (g.isReloading = true → g.reload now = (g, none)) ∧
    (g.isReloading = false →
      (g.reload now).1 = { g with isReloading := true } ∧
      (g.reload now).2 = some (now + g.config.stats.reloadTime) ∧
      (g.reload now).1.reloadComplete.currentAmmo = g.config.stats.magazineSize ∧
      (g.reload now).1.reloadComplete.isReloading = false) := by
  cases hrel : g.isReloading <;>
    simp [GunController.reload, GunController.reloadComplete, hrel]

/-- C4 witness: a fresh rifle starts reloading with the completion
scheduled 2000 ms out, and the completion step restores 30 rounds with the
reloading flag cleared. -/
theorem reload_spec_witness :
    ((mkGunController rifleConfig).reload 0).1.isReloading = true ∧
    ((mkGunController rifleConfig).reload 0).2 = some 2000 ∧
    ((mkGunController rifleConfig).reload 0).1.reloadComplete.currentAmmo = 30 ∧
    ((mkGunController rifleConfig).reload 0).1.reloadComplete.isReloading = false := by
  have h := (reload_spec (mkGunController rifleConfig) 0).2 rfl
  refine ⟨?_, ?_, ?_, h.2.2.2⟩
  · rw [h.1]
  · rw [h.2.1]; norm_num [mkGunController, rifleConfig]
  · rw [h.2.2.1]; norm_num [mkGunController, rifleConfig]

/-- C10: the rejection checks of fire() run in the order reloading, then
cooldown, then empty magazine: onEmpty fires exactly when the gun is not
reloading, the cooldown has elapsed, and the magazine is empty, while a
reloading or cooldown rejection emits no signal at all — in particular an
empty gun fired inside the cooldown window is rejected silently. -/
theorem fire_empty_signal (g : GunController) (now : ℚ)
    (ha : 0 ≤ g.currentAmmo) :
    ((g.fire now).2.2 = some GunSignal.empty ↔
      g.isReloading = false ∧
      ¬ now - g.lastFireTime < 1000 / g.config.stats.fireRate ∧
      g.currentAmmo = 0) ∧
    ((g.isReloading = true ∨ now - g.lastFireTime < 1000 / g.config.stats.fireRate) →
      g.fire now = (g, false, none)) := by
  cases hrel : g.isReloading with
  | true => simp [GunController.fire, hrel]
  | false =>
    by_cases hcd : now - g.lastFireTime < 1000 / g.config.stats.fireRate
    · simp [GunController.fire, hrel, hcd]
    · by_cases hz : g.currentAmmo ≤ 0
      · have h0 : g.currentAmmo = 0 := le_antisymm hz ha
        simp [GunController.fire, hrel, hcd, hz, h0]
      · push_neg at hz
        simp [GunController.fire, hrel, hcd, not_le.mpr hz, hz.ne']

/-- C10 witness: a rifle with an empty magazine fired 0 ms after its last
shot is still inside the 125 ms cooldown window, so the call is rejected
silently: no state change, result false, no signal (onEmpty in
particular is not emitted). -/
theorem fire_empty_signal_witness :
    ({ mkGunController rifleConfig with
        currentAmmo := 0, lastFireTime := 1000 }).fire 1000 =
      ({ mkGunController rifleConfig with
          currentAmmo := 0, lastFireTime := 1000 }, false, none) := by
  exact (fire_empty_signal _ 1000 (by norm_num)).2
    (Or.inr (by norm_num [mkGunController, rifleConfig]))

/-- moveTowards only displaces the position: the behavior state is
untouched. -/
theorem moveTowards_npc_state (c : NPCController) (t : NPCPosition) (dt : ℚ) :
    (c.moveTowards t dt).npc.state = c.npc.state := by
  unfold NPCController.moveTowards
  dsimp only
  split <;> rfl

/-- moveTowards leaves the patrol route untouched as well. -/
theorem moveTowards_npc_patrolPoints (c : NPCController) (t : NPCPosition) (dt : ℚ) :
    (c.moveTowards t dt).npc.patrolPoints = c.npc.patrolPoints := by
  unfold NPCController.moveTowards
  dsimp only
  split <;> rfl

/-- Overwriting lastUpdateTime (the first thing update does) does not
change any distance computation. -/
theorem getDistanceTo_set_lastUpdateTime (c : NPCController) (now : ℚ)
    (t : NPCPosition) :
    NPCController.getDistanceTo { c with lastUpdateTime := now } t =
      c.getDistanceTo t := rfl

/-- C2: one update moves an idle or patrolling actor to aggressive exactly
when the Euclidean distance to the player is at most detectionRange
(inclusive, so strictly beyond it nothing changes), and moves an aggressive
actor out of aggressive exactly when that distance exceeds 1.5 ×
detectionRange, to patrol when a patrol route was supplied and to idle
otherwise; anywhere in the hysteresis band the aggressive state is kept. -/
theorem update_state_transitions (c : NPCController) (p : NPCPosition) (now : ℚ) :
    (c.update p now).npc.state =
      match c.npc.state with
      | NPCState.idle =>
          if c.getDistanceTo p ≤ (c.npc.detectionRange : ℝ) then NPCState.aggressive
          else NPCState.idle
      | NPCState.patrol =>
          if c.getDistanceTo p ≤ (c.npc.detectionRange : ℝ) then NPCState.aggressive
          else NPCState.patrol
      | NPCState.aggressive =>
          if (c.npc.detectionRange : ℝ) * 1.5 < c.getDistanceTo p then
            (if c.npc.patrolPoints.isSome then NPCState.patrol else NPCState.idle)
          else NPCState.aggressive := by
  cases hst : c.npc.state with
  | idle =>
    unfold NPCController.update NPCController.handleIdleState
    by_cases hd : c.getDistanceTo p ≤ (c.npc.detectionRange : ℝ) <;>
      simp [hst, hd, getDistanceTo_set_lastUpdateTime, NPCController.transitionTo]
  | patrol =>
    unfold NPCController.update NPCController.handlePatrolState
    by_cases hd : c.getDistanceTo p ≤ (c.npc.detectionRange : ℝ)
    · simp [hst, hd, getDistanceTo_set_lastUpdateTime, NPCController.transitionTo]
    · cases hpp : c.npc.patrolPoints with
      | none =>
        simp [hst, hd, hpp, getDistanceTo_set_lastUpdateTime]
      | some pts =>
        by_cases hlen : 0 < pts.length
        · by_cases htgt :
              c.getDistanceTo (pts[c.npc.currentPatrolIndex]?.getD ⟨0, 0⟩) < 5 <;>
            simp [hst, hd, hpp, hlen, htgt, moveTowards_npc_state,
              getDistanceTo_set_lastUpdateTime]
        · simp [hst, hd, hpp, hlen, getDistanceTo_set_lastUpdateTime]
  | aggressive =>
    unfold NPCController.update NPCController.handleAggressiveState
    by_cases hu : (c.npc.detectionRange : ℝ) * 1.5 < c.getDistanceTo p
    · cases hpp : c.npc.patrolPoints <;>
        simp [hst, hu, hpp, getDistanceTo_set_lastUpdateTime,
          NPCController.transitionTo]
    · by_cases hatk : (c.npc.attackRange : ℝ) < c.getDistanceTo p <;>
        simp [hst, hu, hatk, moveTowards_npc_state,
          getDistanceTo_set_lastUpdateTime]

/-- C3 counterexample: an actor already at 0 health (health 0 is a legal
spawn value and is reachable by damage). takeDamage(0) then returns true,
because the source returns `health <= 0` after clamping, while the claim
says takeDamage(0) returns false for every hostile actor. -/
theorem takeDamage_zero_health_cex :
    ((mkNPCController "n" ⟨0, 0⟩ { name := "N", health := some 0 } 0).takeDamage
        0 0).2 = true := by
  simp [NPCController.takeDamage, NPCController.transitionTo, mkNPCController]

/-- C3 (amended): for every hostile actor and amount ≥ 0, takeDamage sets
health to max(0, health − amount), forces the aggressive state, and returns
true iff health is now 0; with amount ≥ health it returns true leaving
health exactly 0; and takeDamage(0) on an actor with positive health
returns false and changes the npc record only by forcing the aggressive
state (an actor already at 0 health gets true instead, consistent with the
iff). -/
theorem takeDamage_spec (c : NPCController) (amount now : ℚ)
    (_hamt : 0 ≤ amount) (hh : 0 ≤ c.npc.health) :
    ((c.takeDamage amount now).1.npc =
      { c.npc with health := max 0 (c.npc.health - amount),
                   state := NPCState.aggressive }) ∧
    ((c.takeDamage amount now).2 = true ↔
      (c.takeDamage amount now).1.npc.health = 0) ∧
    (c.npc.health ≤ amount →
      (c.takeDamage amount now).2 = true ∧
      (c.takeDamage amount now).1.npc.health = 0) ∧
    (amount = 0 → 0 < c.npc.health →
      (c.takeDamage amount now).2 = false ∧
      (c.takeDamage amount now).1.npc =
        { c.npc with state := NPCState.aggressive }) := by
  obtain ⟨⟨i, nm, st, pos, h, mh, dr, ar, sp, pp, idx⟩, stt, lut⟩ := c
  simp only at hh
  refine ⟨?_, ?_, ?_, ?_⟩
  · cases st <;>
      simp [NPCController.takeDamage, NPCController.transitionTo]
  · cases st <;>
      simp [NPCController.takeDamage, NPCController.transitionTo]
  · intro hle
    have h0 : max 0 (h - amount) = 0 := max_eq_left (sub_nonpos.mpr hle)
    cases st <;>
      simp [NPCController.takeDamage, NPCController.transitionTo, h0]
  · intro hz hpos
    subst hz
    have h0 : max 0 (h - 0) = h := by
      rw [sub_zero]; exact max_eq_right hh
    have hne : ¬ h ≤ 0 := not_le.mpr hpos
    cases st <;>
      simp [NPCController.takeDamage, NPCController.transitionTo, h0, hne, hh]

/-- C3 witness: a freshly spawned actor with 100 health hit for 30 ends at
70 health, aggressive, not yet defeated. -/
theorem takeDamage_spec_witness :
    ((mkNPCController "n" ⟨0, 0⟩ { name := "N" } 0).takeDamage 30 0).1.npc.health
        = 70 ∧
    ((mkNPCController "n" ⟨0, 0⟩ { name := "N" } 0).takeDamage 30 0).1.npc.state
        = NPCState.aggressive ∧
    ((mkNPCController "n" ⟨0, 0⟩ { name := "N" } 0).takeDamage 30 0).2 = false := by
  have h := takeDamage_spec (mkNPCController "n" ⟨0, 0⟩ { name := "N" } 0) 30 0
    (by norm_num) (by norm_num [mkNPCController])
  refine ⟨?_, ?_, ?_⟩
  · rw [h.1]; norm_num [mkNPCController]
  · rw [h.1]
  · have hiff := h.2.1
    rw [h.1] at hiff
    have : ¬ ((mkNPCController "n" ⟨0, 0⟩ { name := "N" } 0).takeDamage 30 0).2
        = true := by
      rw [hiff]; norm_num [mkNPCController]
    simpa using this

/-- C8 counterexample: a config that supplies an empty patrol route. The
truthiness test `config.patrolPoints ? "patrol" : "idle"` sees the empty
array as truthy, so the fresh actor starts in patrol, not idle as the
claim states. -/
theorem mkNPCController_empty_route_cex :
    (mkNPCController "g" ⟨0, 0⟩ { name := "G", patrolPoints := some [] } 0).npc.state
        ≠ NPCState.idle ∧
    (mkNPCController "g" ⟨0, 0⟩ { name := "G", patrolPoints := some [] } 0).npc.state
        = NPCState.patrol := by
  exact ⟨by decide, rfl⟩

/-- C8 (amended): a freshly constructed hostile actor starts in patrol iff
a patrol route was supplied at spawn, empty or not, and in idle iff none
was supplied (the source tests only the presence of the array, so a
supplied empty route also yields patrol). -/
theorem mkNPCController_initial_state (id : String) (position : NPCPosition)
    (config : NPCConfig) (now : ℚ) :
    ((mkNPCController id position config now).npc.state = NPCState.patrol ↔
      config.patrolPoints.isSome = true) ∧
    ((mkNPCController id position config now).npc.state = NPCState.idle ↔
      config.patrolPoints = none) := by
  cases hpp : config.patrolPoints <;> simp [mkNPCController, hpp]

/-- C7 counterexample: spawning twice under the id "e1". The second spawn
raises no error — `Map.set` stores the new controller — and the registry
afterwards holds the actor named "B", silently replacing the actor named
"A". -/
theorem spawnNPC_duplicate_cex :
    ((((NPCManager.emptyManager.spawnNPC "e1" ⟨0, 0⟩ { name := "A" } 0).1.spawnNPC
          "e1" ⟨0, 0⟩ { name := "B" } 0).1.getNPC "e1").map
        (fun c => c.npc.name)) = some "B" ∧
    ("B" : String) ≠ "A" := by
  constructor
  · rfl
  · decide

/-- C7 (amended): spawn with an id already present in the registry does not
fail: it succeeds, returning the freshly constructed controller, and
silently replaces the existing actor under that id. -/
theorem spawnNPC_overwrites (m : NPCManager) (id : String)
    (position : NPCPosition) (config : NPCConfig) (now : ℚ)
    (_hpresent : (m.getNPC id).isSome = true) :
    (m.spawnNPC id position config now).1.getNPC id =
      some (mkNPCController id position config now) ∧
    (m.spawnNPC id position config now).2 =
      mkNPCController id position config now := by
  constructor
  · simp [NPCManager.spawnNPC, NPCManager.getNPC]
  · rfl

/-- C7 witness: applying the overwrite theorem to a registry that already
holds "e1". -/
theorem spawnNPC_overwrites_witness :
    ((NPCManager.emptyManager.spawnNPC "e1" ⟨0, 0⟩ { name := "A" } 0).1.spawnNPC
        "e1" ⟨1, 1⟩ { name := "B" } 0).1.getNPC "e1" =
      some (mkNPCController "e1" ⟨1, 1⟩ { name := "B" } 0) := by
  exact (spawnNPC_overwrites
    (NPCManager.emptyManager.spawnNPC "e1" ⟨0, 0⟩ { name := "A" } 0).1
    "e1" ⟨1, 1⟩ { name := "B" } 0 (by rfl)).1

/-- C9 counterexample: the snapshot returned by getNPC() carries the same
position reference as the actor, so writing through the snapshot position
changes what the actor itself reads back — the full snapshot is not a
defensive copy of its nested fields. -/
theorem getNPC_shallow_cex :
    (heapExample.write (getNPCRef npcRefExample).positionRef ⟨5, 5⟩).read
        npcRefExample.positionRef ≠
      heapExample.read npcRefExample.positionRef := by
  decide

/-- C9 (amended): getPosition(), getHealth() and getState() are defensive —
getPosition allocates a fresh position cell, so mutating the returned
object leaves the actor position intact, and the other two return
primitives — but getNPC() is a shallow copy: its snapshot holds the same
position reference as the actor, so a nested mutation through the snapshot
does reach the actor. -/
theorem accessor_copy_semantics (h : PosHeap) (c : NPCObjRef) (p : PosObj)
    (hv : c.positionRef < h.cells.length) :
    ((PosHeap.write (getPositionRef h c).1 (getPositionRef h c).2 p).read
        c.positionRef = h.read c.positionRef) ∧
    getHealthRef c = c.health ∧
    getStateRef c = c.state ∧
    (getNPCRef c).positionRef = c.positionRef ∧
    ((PosHeap.write h (getNPCRef c).positionRef p).read c.positionRef = p) := by
  refine ⟨?_, rfl, rfl, rfl, ?_⟩
  · simp only [getPositionRef, PosHeap.alloc, PosHeap.write, PosHeap.read]
    rw [List.getD_eq_getElem?_getD, List.getD_eq_getElem?_getD,
      List.getElem?_set_ne (by omega), List.getElem?_append_left hv]
  · simp only [getNPCRef, PosHeap.write, PosHeap.read]
    rw [List.getD_eq_getElem?_getD, List.getElem?_set_self hv]
    rfl

/-- C9 witness: the amended theorem applied to the concrete heap: mutating
the defensive position copy leaves the actor reading back its original
position. -/
theorem accessor_copy_semantics_witness :
    (PosHeap.write (getPositionRef heapExample npcRefExample).1
        (getPositionRef heapExample npcRefExample).2 ⟨5, 5⟩).read
      npcRefExample.positionRef = ⟨0, 0⟩ := by
  have h := (accessor_copy_semantics heapExample npcRefExample ⟨5, 5⟩
    (by decide)).1
  rw [h]
  rfl

/-- The initial snapshot satisfies the player-state invariant. -/
theorem gameInv_initialState : GameInv initialState :=
  ⟨by norm_num [initialState], by norm_num [initialState],
   by norm_num [initialState], by norm_num [initialState],
   ⟨30, by norm_num [initialState]⟩, ⟨30, by norm_num [initialState]⟩,
   fun m hm => by simp [initialState] at hm⟩

/-- One reducer step with a nonnegative payload preserves the player-state
invariant. -/
theorem gameInv_step (s : GameState) (a : GameAction)
    (hs : GameInv s) (ha : nonNegAction a = true) :
    GameInv (gameReducer s a) := by
  obtain ⟨h1, h2, h3, h4, ⟨n, hn⟩, ⟨k, hk⟩, hm⟩ := hs
  cases a with
  | shoot =>
    by_cases hz : s.ammo ≤ 0
    · have hred : gameReducer s GameAction.shoot = s := by
        simp [gameReducer, hz]
      rw [hred]
      exact ⟨h1, h2, h3, h4, ⟨n, hn⟩, ⟨k, hk⟩, hm⟩
    · push_neg at hz
      have hred : gameReducer s GameAction.shoot = { s with ammo := s.ammo - 1 } := by
        simp [gameReducer, not_le.mpr hz]
      have hn0 : 0 < n := by
        have hq := hz
        rw [hn] at hq
        exact_mod_cast hq
      have hone : (1 : ℚ) ≤ (n : ℚ) := by exact_mod_cast hn0
      rw [hred]
      refine ⟨h1, h2, ?_, ?_, ⟨n - 1, ?_⟩, ⟨k, hk⟩, hm⟩
      · show 0 ≤ s.ammo - 1
        rw [hn]; linarith
      · show s.ammo - 1 ≤ s.maxAmmo
        linarith
      · show s.ammo - 1 = ((n - 1 : ℕ) : ℚ)
        rw [hn, Nat.cast_sub hn0, Nat.cast_one]
  | reload =>
    exact ⟨h1, h2, by show (0:ℚ) ≤ s.maxAmmo; linarith, le_refl _,
      ⟨k, hk⟩, ⟨k, hk⟩, hm⟩
  | takeDamage payload =>
    simp only [nonNegAction, decide_eq_true_eq] at ha
    refine ⟨le_max_left _ _, max_le (le_trans h1 h2) ?_, h3, h4,
      ⟨n, hn⟩, ⟨k, hk⟩, hm⟩
    calc s.health - payload ≤ s.health := sub_le_self _ ha
    _ ≤ s.maxHealth := h2
  | heal payload =>
    simp only [nonNegAction, decide_eq_true_eq] at ha
    exact ⟨le_min (le_trans h1 h2) (by linarith), min_le_left _ _, h3, h4,
      ⟨n, hn⟩, ⟨k, hk⟩, hm⟩
  | move payload =>
    exact ⟨h1, h2, h3, h4, ⟨n, hn⟩, ⟨k, hk⟩, hm⟩
  | setMission payload =>
    simp only [nonNegAction, decide_eq_true_eq] at ha
    refine ⟨h1, h2, h3, h4, ⟨n, hn⟩, ⟨k, hk⟩, ?_⟩
    intro m hm2
    have : some payload = some m := hm2
    rw [← Option.some.injEq payload m |>.mp this]
    exact ha
  | completeMission =>
    cases hcm : s.currentMission with
    | none =>
      have hred : gameReducer s GameAction.completeMission = s := by
        simp [gameReducer, hcm]
      rw [hred]
      exact ⟨h1, h2, h3, h4, ⟨n, hn⟩, ⟨k, hk⟩, hm⟩
    | some m =>
      have hred : gameReducer s GameAction.completeMission =
          { s with score := s.score + m.reward, currentMission := none } := by
        simp [gameReducer, hcm]
      rw [hred]
      refine ⟨h1, h2, h3, h4, ⟨n, hn⟩, ⟨k, hk⟩, ?_⟩
      intro m2 hm2
      exact absurd hm2 (by simp)
  | equipWeapon payload =>
    exact ⟨h1, h2, h3, h4, ⟨n, hn⟩, ⟨k, hk⟩, hm⟩
  | addScore payload =>
    exact ⟨h1, h2, h3, h4, ⟨n, hn⟩, ⟨k, hk⟩, hm⟩
  | reset =>
    exact gameInv_initialState

/-- On a state satisfying the invariant, every nonnegative-payload action
other than RESET leaves the score no smaller. -/
theorem score_mono_step (s : GameState) (a : GameAction)
    (hs : GameInv s) (ha : nonNegAction a = true) (hr : a ≠ GameAction.reset) :
    s.score ≤ (gameReducer s a).score := by
  cases a with
  | shoot => by_cases hz : s.ammo ≤ 0 <;> simp [gameReducer, hz]
  | reload => simp [gameReducer]
  | takeDamage payload => simp [gameReducer]
  | heal payload => simp [gameReducer]
  | move payload => simp [gameReducer]
  | setMission payload => simp [gameReducer]
  | completeMission =>
    cases hcm : s.currentMission with
    | none => simp [gameReducer, hcm]
    | some m =>
      have hrw := hs.2.2.2.2.2.2 m hcm
      simp only [gameReducer, hcm]
      linarith
  | equipWeapon payload => simp [gameReducer]
  | addScore payload =>
    simp only [nonNegAction, decide_eq_true_eq] at ha
    simp only [gameReducer]
    linarith
  | reset => exact absurd rfl hr

/-- The invariant is preserved along any admissible action sequence. -/
theorem gameInv_foldl (acts : List GameAction) (s : GameState)
    (hs : GameInv s) (h : ∀ a ∈ acts, nonNegAction a = true) :
    GameInv (acts.foldl gameReducer s) := by
  induction acts generalizing s with
  | nil => exact hs
  | cons a t ih =>
    rw [List.foldl_cons]
    exact ih (gameReducer s a)
      (gameInv_step s a hs (h a (List.mem_cons_self a t)))
      (fun b hb => h b (List.mem_cons_of_mem a hb))

/-- C5 counterexample: the reducer accepts a negative ADD_SCORE payload and
applies it directly, so dispatching ADD_SCORE(-1) from the initial snapshot
strictly decreases the score without a RESET — refuting the claim as
stated over every sequence of intents. (HEAL with a large negative payload
likewise drives health below 0.) -/
theorem gameReducer_negative_addScore_cex :
    (gameReducer initialState (GameAction.addScore (-1))).score <
      initialState.score := by
  norm_num [gameReducer, initialState]

/-- C5 (amended): for every intent sequence whose numeric payloads
(TAKE_DAMAGE, HEAL, ADD_SCORE) and SET_MISSION rewards are nonnegative,
every state reached from the initial snapshot keeps 0 ≤ health ≤ maxHealth
and 0 ≤ ammo ≤ maxAmmo, no admissible non-RESET step decreases the score,
and dispatching SHOOT at ammo 0 leaves ammo exactly 0. -/
theorem gameReducer_reachable_invariants (acts : List GameAction)
    (h : ∀ a ∈ acts, nonNegAction a = true) :
    (0 ≤ (acts.foldl gameReducer initialState).health ∧
     (acts.foldl gameReducer initialState).health ≤
       (acts.foldl gameReducer initialState).maxHealth ∧
     0 ≤ (acts.foldl gameReducer initialState).ammo ∧
     (acts.foldl gameReducer initialState).ammo ≤
       (acts.foldl gameReducer initialState).maxAmmo) ∧
    (∀ a, nonNegAction a = true → a ≠ GameAction.reset →
      (acts.foldl gameReducer initialState).score ≤
        (gameReducer (acts.foldl gameReducer initialState) a).score) ∧
    ((acts.foldl gameReducer initialState).ammo = 0 →
      (gameReducer (acts.foldl gameReducer initialState) GameAction.shoot).ammo
        = 0) := by
  have hinv := gameInv_foldl acts initialState gameInv_initialState h
  refine ⟨⟨hinv.1, hinv.2.1, hinv.2.2.1, hinv.2.2.2.1⟩, ?_, ?_⟩
  · intro a hna hnr
    exact score_mono_step _ a hinv hna hnr
  · intro hz
    simp [gameReducer, hz]

/-- C5 witness: a small admissible sequence — one shot, then 10 damage —
lands in a state with the bounds intact (ammo 29 of 30, health 90 of
100). -/
theorem gameReducer_reachable_invariants_witness :
    0 ≤ ([GameAction.shoot,
          GameAction.takeDamage 10].foldl gameReducer initialState).health ∧
    ([GameAction.shoot,
      GameAction.takeDamage 10].foldl gameReducer initialState).ammo ≤
      ([GameAction.shoot,
        GameAction.takeDamage 10].foldl gameReducer initialState).maxAmmo := by
  have h := gameReducer_reachable_invariants
    [GameAction.shoot, GameAction.takeDamage 10] (by decide)
  exact ⟨h.1.1, h.1.2.2.2⟩

/-- C6: COMPLETE_MISSION with a mission present adds exactly its reward to
the score and clears currentMission, leaving every other field unchanged;
with no mission present it is a no-op returning the state unchanged. -/
theorem completeMission_spec (s : GameState) (m : Mission) :
    (s.currentMission = some m →
      gameReducer s GameAction.completeMission =
        { s with score := s.score + m.reward, currentMission := none }) ∧
    (s.currentMission = none →
      gameReducer s GameAction.completeMission = s) := by
  constructor <;> intro hm <;> simp [gameReducer, hm]

/-- C6 witness: SET_MISSION of a 50-point mission followed by
COMPLETE_MISSION raises the score from 0 to exactly 50 and clears the
mission slot. -/
theorem completeMission_spec_witness :
    (gameReducer
        (gameReducer initialState
          (GameAction.setMission ⟨"m1", "T", "O", 50, "x"⟩))
        GameAction.completeMission).score = 50 ∧
    (gameReducer
        (gameReducer initialState
          (GameAction.setMission ⟨"m1", "T", "O", 50, "x"⟩))
        GameAction.completeMission).currentMission = none := by
  have h := (completeMission_spec
    (gameReducer initialState (GameAction.setMission ⟨"m1", "T", "O", 50, "x"⟩))
    ⟨"m1", "T", "O", 50, "x"⟩).1 rfl
  rw [h]
  constructor
  · norm_num [gameReducer, initialState]
  · rfl

end Shootmaster
